import Mathlib

/-!
Shallow embedding of `G1OJS_Tiny_Si5351_CLK0.cpp` (Si5351 CLK0 frequency setter).

The C++ source computes the feedback-multisynth fraction with `double`
arithmetic; here that arithmetic is modelled exactly over `ℚ`, with C's
truncation-toward-zero of non-negative values rendered as `Nat.floor`.
The I2C side effects (`Wire.beginTransmission` / `Wire.write` /
`Wire.endTransmission` inside `I2CFlexiWrite`, plus `delayMicroseconds`)
are modelled as a trace of bus events.  `Wire.endTransmission` returns a
status byte that the source discards; the trace-producing function takes
an oracle `ack` giving the status of each transaction so that independence
from the transport's results can be stated; the source never inspects it.
-/

namespace G1OJS_Tiny_Si5351_CLK0

/-- Correction factor `#define CorrFact 0.999658117`, as an exact rational. -/
def CorrFact : ℚ := 999658117 / 1000000000

/-- Largest allowed value of the fraction denominator `c`:
`#define MSNAc 1048575UL`. -/
def MSNAc : ℕ := 1048575

/-- Source line `double MSNA = fout_Hz * CorrFact * 6.0 / 25000000.0`, modelled exactly. -/
def MSNA (fout_Hz : ℕ) : ℚ := (fout_Hz : ℚ) * CorrFact * 6 / 25000000

/-- Source line `uint32_t MSNAa = MSNA;` — C truncation toward zero of a non-negative
value, i.e. the floor. -/
def MSNAa (fout_Hz : ℕ) : ℕ := ⌊MSNA fout_Hz⌋₊

/-- Source line `uint32_t MSNAb = (double)(MSNA - MSNAa) * (double)MSNAc;` — again a
truncation toward zero of a non-negative value. -/
def MSNAb (fout_Hz : ℕ) : ℕ := ⌊(MSNA fout_Hz - (MSNAa fout_Hz : ℚ)) * (MSNAc : ℚ)⌋₊

/-- Source line `uint32_t MSNA_P1 = 128 * MSNAa + 128 * MSNAb / MSNAc - 512;` in uint32
arithmetic: the subtraction wraps modulo `2^32` (for any `fout_Hz` below
`2^32` the sum `128*MSNAa + 128*MSNAb/MSNAc` itself stays far below `2^32`,
so only the final subtraction can wrap). -/
def MSNA_P1 (fout_Hz : ℕ) : ℕ :=
  (128 * MSNAa fout_Hz + 128 * MSNAb fout_Hz / MSNAc + 2 ^ 32 - 512) % 2 ^ 32

/-- Source line `uint32_t MSNA_P2 = 128 * MSNAb - MSNAc * (128 * MSNAb / MSNAc);`
(never underflows, as `MSNAc * (128*MSNAb/MSNAc) ≤ 128*MSNAb`). -/
def MSNA_P2 (fout_Hz : ℕ) : ℕ :=
  128 * MSNAb fout_Hz - MSNAc * (128 * MSNAb fout_Hz / MSNAc)

/-- Source line `uint32_t MSNA_P3 = MSNAc;` -/
def MSNA_P3 : ℕ := MSNAc

/-- Byte written to register 31:
`(uint8_t)((MSNA_P3>>12) & 0xF0) + (uint8_t)((MSNA_P2>>16) & 0x0F)`
(both operands are already < 256, so the uint8 casts are identities and the
sum fits a byte). -/
def reg31_byte (p2 p3 : ℕ) : ℕ := ((p3 >>> 12) &&& 0xF0) + ((p2 >>> 16) &&& 0x0F)

/-- Observable effects on the bus / timer.  `read` is included so that the
absence of bus reads is expressible; the source never produces it. -/
inductive BusEvent where
  | write (reg : ℕ) (data : List ℕ) : BusEvent
  | delayMicroseconds (us : ℕ) : BusEvent
  | read (reg : ℕ) : BusEvent

def BusEvent.isWrite : BusEvent → Bool
  | .write _ _ => true
  | _ => false

def BusEvent.isRead : BusEvent → Bool
  | .read _ => true
  | _ => false

/-- Registers touched by an event: a burst write to `reg` with `n` data
bytes auto-increments through registers `reg, reg+1, …, reg+n-1`. -/
def BusEvent.regsTouched : BusEvent → List ℕ
  | .write reg data => (List.range data.length).map (fun i => reg + i)
  | _ => []

/-- Helper `I2CFlexiWrite(reg, b0, include_b1_to_b7, b1..b7)` writes one byte to
`reg` and optionally seven more to the following sequential registers,
in a single transaction. -/
def I2CFlexiWrite (reg b0 : ℕ) (incl : Bool) (b1 b2 b3 b4 b5 b6 b7 : ℕ) :
    List BusEvent :=
  [BusEvent.write reg (b0 :: (if incl then [b1, b2, b3, b4, b5, b6, b7] else []))]

/-- Entry point `void set_freq_Hz(uint32_t fout_Hz)` as the trace of bus events it
emits, in source order.  `ack i` models the status byte returned by the
`i`-th `Wire.endTransmission()`; the source discards every status, so the
parameter is never consulted. -/
def set_freq_Hz (ack : ℕ → Bool) (fout_Hz : ℕ) : List BusEvent :=
  -- Figure 10 Box 1: Disable Outputs
  I2CFlexiWrite 24 0x00 false 0 0 0 0 0 0 0 ++
  I2CFlexiWrite 3 0xFF false 0 0 0 0 0 0 0 ++
  -- Figure 10 Box 2: Power-down all output drivers
  I2CFlexiWrite 16 0x80 true 0x80 0x80 0x80 0x80 0x80 0x80 0x80 ++
  -- Figure 10 Box 4: reference selection and load capacitance
  I2CFlexiWrite 15 0x00 false 0 0 0 0 0 0 0 ++
  I2CFlexiWrite 183 0x2 false 0 0 0 0 0 0 0 ++
  -- Output Multisynth registers and Output Divider setting
  I2CFlexiWrite 42 0 true 1 0 1 0 0 0 0 ++
  -- Feedback Multisynth registers 26..33
  I2CFlexiWrite 26 ((MSNA_P3 >>> 8) &&& 0xFF) true
    (MSNA_P3 &&& 0xFF)
    ((MSNA_P1 fout_Hz >>> 16) &&& 0x03)
    ((MSNA_P1 fout_Hz >>> 8) &&& 0xFF)
    (MSNA_P1 fout_Hz &&& 0xFF)
    (reg31_byte (MSNA_P2 fout_Hz) MSNA_P3)
    ((MSNA_P2 fout_Hz >>> 8) &&& 0xFF)
    (MSNA_P2 fout_Hz &&& 0xFF) ++
  -- power up clock 0, select PLLA etc
  I2CFlexiWrite 16 0x4F false 0 0 0 0 0 0 0 ++
  -- Figure 10 Box 5: settle, then reset PLLA
  [BusEvent.delayMicroseconds 500] ++
  I2CFlexiWrite 177 0x20 false 0 0 0 0 0 0 0 ++
  -- Figure 10 Box 6: enable clock 0 output
  I2CFlexiWrite 3 0x00 false 0 0 0 0 0 0 0

/-- Register subset this design is allowed to touch: output enable control
(3), reference source (15), driver power / clock control burst (16–23),
clock disable state (24), feedback multisynth (26–33), output multisynth
and divider (42–49), PLL reset (177), reference load capacitance (183). -/
def allowedRegs : List ℕ :=
  [3, 15, 16, 17, 18, 19, 20, 21, 22, 23, 24,
   26, 27, 28, 29, 30, 31, 32, 33,
   42, 43, 44, 45, 46, 47, 48, 49, 177, 183]

/-- Spec §8 round trip: reconstruct the synthesized output frequency from
the computed `(a, b, c)` as `reference_hz * (a + b/c) / output_divide_ratio
/ correction_factor`. -/
def reconstruct (fout_Hz : ℕ) : ℚ :=
  25000000 * ((MSNAa fout_Hz : ℚ) + (MSNAb fout_Hz : ℚ) / (MSNAc : ℚ)) / 6 / CorrFact

/- ------------------------------------------------------------------ -/
/- Helper lemmas.                                                      -/
/- ------------------------------------------------------------------ -/

theorem MSNA_eq_div (f : ℕ) :
    MSNA f = ((f * 5997948702 : ℕ) : ℚ) / ((25000000000000000 : ℕ) : ℚ) := by
  unfold MSNA CorrFact
  push_cast
  ring

theorem MSNAa_eq (f : ℕ) : MSNAa f = f * 5997948702 / 25000000000000000 := by
  unfold MSNAa
  rw [MSNA_eq_div, Nat.floor_div_nat, Nat.floor_natCast]

theorem MSNA_nonneg (f : ℕ) : 0 ≤ MSNA f := by
  rw [MSNA_eq_div]
  positivity

theorem MSNAa_cast_le (f : ℕ) : (MSNAa f : ℚ) ≤ MSNA f :=
  Nat.floor_le (MSNA_nonneg f)

theorem MSNA_lt_MSNAa_add_one (f : ℕ) : MSNA f < MSNAa f + 1 :=
  Nat.lt_floor_add_one (MSNA f)

theorem frac_nonneg (f : ℕ) : 0 ≤ (MSNA f - (MSNAa f : ℚ)) * (MSNAc : ℚ) := by
  have h := MSNAa_cast_le f
  have hc : (0 : ℚ) ≤ (MSNAc : ℚ) := by positivity
  nlinarith

theorem MSNAb_cast_le (f : ℕ) :
    (MSNAb f : ℚ) ≤ (MSNA f - (MSNAa f : ℚ)) * (MSNAc : ℚ) :=
  Nat.floor_le (frac_nonneg f)

theorem lt_MSNAb_add_one (f : ℕ) :
    (MSNA f - (MSNAa f : ℚ)) * (MSNAc : ℚ) < MSNAb f + 1 :=
  Nat.lt_floor_add_one _

theorem MSNAb_eq (f : ℕ) :
    MSNAb f = f * 5997948702 % 25000000000000000 * 1048575 / 25000000000000000 := by
  have h : 25000000000000000 * (f * 5997948702 / 25000000000000000)
      + f * 5997948702 % 25000000000000000 = f * 5997948702 :=
    Nat.div_add_mod (f * 5997948702) 25000000000000000
  have h2 : (25000000000000000 : ℚ) * ((f * 5997948702 / 25000000000000000 : ℕ) : ℚ)
      + ((f * 5997948702 % 25000000000000000 : ℕ) : ℚ) = ((f * 5997948702 : ℕ) : ℚ) := by
    exact_mod_cast h
  have key : (((f * 5997948702 : ℕ) : ℚ) / ((25000000000000000 : ℕ) : ℚ)
      - ((f * 5997948702 / 25000000000000000 : ℕ) : ℚ)) * (MSNAc : ℚ)
      = ((f * 5997948702 % 25000000000000000 * 1048575 : ℕ) : ℚ)
        / ((25000000000000000 : ℕ) : ℚ) := by
    have hc : (MSNAc : ℚ) = 1048575 := by norm_num [MSNAc]
    rw [hc]
    push_cast
    push_cast at h2
    field_simp
    linarith
  unfold MSNAb
  rw [MSNA_eq_div, MSNAa_eq, key, Nat.floor_div_nat, Nat.floor_natCast]

theorem MSNAb_lt_MSNAc (f : ℕ) : MSNAb f < MSNAc := by
  unfold MSNAb
  rw [Nat.floor_lt (frac_nonneg f)]
  have h1 := MSNA_lt_MSNAa_add_one f
  have hc : (0 : ℚ) < (MSNAc : ℚ) := by
    unfold MSNAc
    norm_num
  nlinarith

theorem MSNAa_136 : MSNAa 136000000 = 32 := by rw [MSNAa_eq]

theorem MSNAb_136 : MSNAb 136000000 = 659386 := by rw [MSNAb_eq]

theorem MSNA_P1_136 : MSNA_P1 136000000 = 3664 := by
  unfold MSNA_P1
  rw [MSNAa_eq, MSNAb_eq]
  rfl

theorem MSNA_P2_136 : MSNA_P2 136000000 = 515408 := by
  unfold MSNA_P2
  rw [MSNAb_eq]
  rfl

/-- In the supported band the integer part of the feedback ratio is at
least 23 (attained near 100 MHz). -/
theorem MSNAa_band_lower (f : ℕ) (h : 100000000 ≤ f) : 23 ≤ MSNAa f := by
  rw [MSNAa_eq]
  have h1 : 100000000 * 5997948702 / 25000000000000000
      ≤ f * 5997948702 / 25000000000000000 :=
    Nat.div_le_div_right (Nat.mul_le_mul_right 5997948702 h)
  exact le_trans (by norm_num) h1

/-- In the supported band the integer part of the feedback ratio is at
most 35 (attained near 150 MHz). -/
theorem MSNAa_band_upper (f : ℕ) (h : f ≤ 150000000) : MSNAa f ≤ 35 := by
  rw [MSNAa_eq]
  have h1 : f * 5997948702 / 25000000000000000
      ≤ 150000000 * 5997948702 / 25000000000000000 :=
    Nat.div_le_div_right (Nat.mul_le_mul_right 5997948702 h)
  exact le_trans h1 (by norm_num)

/-- The packing term `128 * MSNAb / MSNAc` never exceeds 127. -/
theorem div_term_le_127 (f : ℕ) : 128 * MSNAb f / MSNAc ≤ 127 := by
  have hb := MSNAb_lt_MSNAc f
  unfold MSNAc at hb ⊢
  omega

set_option maxRecDepth 4096 in
/-- Disjoint-nibble packing fact behind register 31, checked exhaustively
over the byte-sized domain. -/
theorem nibble_pack : ∀ x < 256, ∀ y < 16,
    ((x &&& 0xF0) + (y &&& 0x0F) = ((x &&& 0xF0) ||| (y &&& 0x0F))) ∧
    (((x &&& 0xF0) + (y &&& 0x0F)) / 16 = x / 16) ∧
    (((x &&& 0xF0) + (y &&& 0x0F)) % 16 = y) := by decide

/- ------------------------------------------------------------------ -/
/- Claim theorems.                                                     -/
/- ------------------------------------------------------------------ -/

/-- C2 counterexample: one call to `set_freq_Hz` issues 10 write
operations, not the 9 the claim states. -/
theorem write_count_is_ten :
    (set_freq_Hz (fun _ => true) 136000000).countP BusEvent.isWrite = 10 ∧
    (10 : ℕ) ≠ 9 := by
  constructor
  · rfl
  · decide

/-- C2 (amended): for every input frequency and every transport-status
oracle, `set_freq_Hz` emits exactly this sequence: 10 register writes in
source order (the nine §4.2 steps plus the global driver power-down burst
to registers 16–23 between the output-disable write and the reference
selection), with the single 500 µs settle delay strictly between the
clock-control write (register 16, `0x4F`) and the PLL-reset write
(register 177); no other events occur. -/
theorem write_sequence_order (ack : ℕ → Bool) (f : ℕ) :
    ∃ fb : List ℕ, set_freq_Hz ack f =
      [BusEvent.write 24 [0x00],
       BusEvent.write 3 [0xFF],
       BusEvent.write 16 [0x80, 0x80, 0x80, 0x80, 0x80, 0x80, 0x80, 0x80],
       BusEvent.write 15 [0x00],
       BusEvent.write 183 [0x2],
       BusEvent.write 42 [0, 1, 0, 1, 0, 0, 0, 0],
       BusEvent.write 26 fb,
       BusEvent.write 16 [0x4F],
       BusEvent.delayMicroseconds 500,
       BusEvent.write 177 [0x20],
       BusEvent.write 3 [0x00]] ∧ fb.length = 8 :=
  ⟨_, rfl, rfl⟩

/-- C6: for every input frequency the synthesizer fraction satisfies the
data-model invariant: `c` is exactly `2^20 - 1` and `0 ≤ b < c` (the
integer part `a` is a `ℕ` by construction, hence non-negative). -/
theorem fraction_invariant (f : ℕ) :
    MSNAc = 2 ^ 20 - 1 ∧ MSNAb f < MSNAc := by
  constructor
  · rfl
  · exact MSNAb_lt_MSNAc f

/-- C7: the Register Calculator is a deterministic pure function of the
target frequency: two invocations with the same frequency yield the same
`(P1, P2, P3)` and the same bus trace, whatever the transport-status
oracles report (the only runtime state besides the argument and the
compile-time constants). -/
theorem register_calculator_deterministic (f₁ f₂ : ℕ) (ack₁ ack₂ : ℕ → Bool)
    (h : f₁ = f₂) :
    (MSNA_P1 f₁, MSNA_P2 f₁, MSNA_P3) = (MSNA_P1 f₂, MSNA_P2 f₂, MSNA_P3) ∧
    set_freq_Hz ack₁ f₁ = set_freq_Hz ack₂ f₂ := by
  subst h
  exact ⟨rfl, rfl⟩

theorem register_calculator_deterministic_witness :
    (136000000 : ℕ) = 136000000 ∧
    ((MSNA_P1 136000000, MSNA_P2 136000000, MSNA_P3)
      = (MSNA_P1 136000000, MSNA_P2 136000000, MSNA_P3) ∧
     set_freq_Hz (fun _ => true) 136000000
      = set_freq_Hz (fun _ => false) 136000000) :=
  ⟨rfl, register_calculator_deterministic 136000000 136000000
    (fun _ => true) (fun _ => false) rfl⟩

/-- C8: every register touched by a write of `set_freq_Hz` lies in the
fixed allowed subset, and no event is a bus read. -/
theorem frame_writes_allowed (ack : ℕ → Bool) (f : ℕ) :
    ((set_freq_Hz ack f).all fun e =>
      (e.regsTouched.all fun r => allowedRegs.contains r) && !e.isRead) = true :=
  rfl

/-- C9: the entry point exposes no error channel: the trace it emits is
independent of every status the transport reports, always runs the full
11-event sequence to completion, and issues each of its 10 writes exactly
once (no retries). -/
theorem no_error_channel (f : ℕ) (ack₁ ack₂ : ℕ → Bool) :
    set_freq_Hz ack₁ f = set_freq_Hz ack₂ f ∧
    (set_freq_Hz ack₁ f).length = 11 ∧
    (set_freq_Hz ack₁ f).countP BusEvent.isWrite = 10 :=
  ⟨rfl, rfl, rfl⟩

/-- C10: for `P2 < 2^20` and `P3 < 2^20` the two addends of the register
31 byte occupy disjoint nibbles, so the addition never carries and equals
the bitwise OR; the byte holds `P3[19:16]` in its high nibble and
`P2[19:16]` in its low nibble. -/
theorem reg31_nibble_pack (p2 p3 : ℕ) (h2 : p2 < 2 ^ 20) (h3 : p3 < 2 ^ 20) :
    reg31_byte p2 p3 = ((p3 >>> 12) &&& 0xF0) ||| ((p2 >>> 16) &&& 0x0F) ∧
    reg31_byte p2 p3 / 16 = p3 >>> 16 ∧
    reg31_byte p2 p3 % 16 = p2 >>> 16 := by
  have hx : p3 >>> 12 < 256 := by
    rw [Nat.shiftRight_eq_div_pow]
    omega
  have hy : p2 >>> 16 < 16 := by
    rw [Nat.shiftRight_eq_div_pow]
    omega
  have h := nibble_pack (p3 >>> 12) hx (p2 >>> 16) hy
  refine ⟨h.1, ?_, h.2.2⟩
  have hdiv : (p3 >>> 12) / 16 = p3 >>> 16 := by
    rw [Nat.shiftRight_eq_div_pow, Nat.shiftRight_eq_div_pow, Nat.div_div_eq_div_mul]
  rw [← hdiv]
  exact h.2.1

theorem reg31_nibble_pack_witness :
    (515408 : ℕ) < 2 ^ 20 ∧ (1048575 : ℕ) < 2 ^ 20 ∧
    (reg31_byte 515408 1048575
        = ((1048575 >>> 12) &&& 0xF0) ||| ((515408 >>> 16) &&& 0x0F) ∧
     reg31_byte 515408 1048575 / 16 = 1048575 >>> 16 ∧
     reg31_byte 515408 1048575 % 16 = 515408 >>> 16) :=
  ⟨by decide, by decide,
   reg31_nibble_pack 515408 1048575 (by decide) (by decide)⟩

/-- C1 counterexample: at 136 MHz the code's feedback ratio is below
32.63 (not ≈ 32.65109 as claimed: the code multiplies by the correction
factor instead of dividing by it) and the fractional numerator is
b = 659386, not ≈ 682752. -/
theorem scenario_136MHz_counterexample :
    MSNAb 136000000 = 659386 ∧ MSNAb 136000000 ≠ 682752 ∧
    MSNA 136000000 < 3263 / 100 := by
  refine ⟨MSNAb_136, ?_, ?_⟩
  · rw [MSNAb_136]
    decide
  · rw [MSNA_eq_div]
    norm_num

/-- C1 (amended): for target 136,000,000 Hz the code computes the
feedback ratio MSNA = 50982563967/1562500000 ≈ 32.628841 (corrected
target f × CorrFact ≈ 135,953,503.9 Hz), a = 32, b = 659386,
c = 1,048,575, and the resulting P1 = 3664, P2 = 515,408, P3 = 1,048,575
match the §4.1 packing formulas bit-for-bit. -/
theorem scenario_136MHz_registers :
    MSNA 136000000 = 50982563967 / 1562500000 ∧
    MSNAa 136000000 = 32 ∧ MSNAb 136000000 = 659386 ∧ MSNAc = 1048575 ∧
    MSNA_P1 136000000 = 3664 ∧ MSNA_P2 136000000 = 515408 ∧
    MSNA_P3 = 1048575 ∧
    128 * 32 + 128 * 659386 / 1048575 - 512 = 3664 ∧
    128 * 659386 - 1048575 * (128 * 659386 / 1048575) = 515408 := by
  refine ⟨?_, MSNAa_136, MSNAb_136, rfl, MSNA_P1_136, MSNA_P2_136, rfl, ?_, ?_⟩
  · rw [MSNA_eq_div]
    norm_num
  · decide
  · decide

/-- C3 counterexample: at 0 Hz the uint32 subtraction in
`128*MSNAa + 128*MSNAb/MSNAc - 512` wraps around, so P1 is 4294966784
rather than the integer value −512 given by the claimed formula. -/
theorem P1_wraps_at_zero :
    MSNA_P1 0 = 4294966784 ∧
    (MSNA_P1 0 : ℤ) ≠
      128 * (MSNAa 0 : ℤ) + ((128 * MSNAb 0 / MSNAc : ℕ) : ℤ) - 512 := by
  have ha : MSNAa 0 = 0 := by rw [MSNAa_eq]
  have hb : MSNAb 0 = 0 := by rw [MSNAb_eq]
  have h1 : MSNA_P1 0 = 4294966784 := by
    unfold MSNA_P1
    rw [ha, hb]
    rfl
  refine ⟨h1, ?_⟩
  rw [h1, ha, hb]
  decide

/-- C3 (amended): for every uint32 input frequency, P2 and P3 equal the
§4.1 packing formulas exactly, and P1 equals the integer formula
`128*a + ⌊128*b/c⌋ − 512` whenever `128*a + ⌊128*b/c⌋ ≥ 512` (true
throughout the supported band); below that the uint32 subtraction wraps
modulo 2^32. -/
theorem packing_formulas (f : ℕ) (hf : f < 2 ^ 32)
    (h : 512 ≤ 128 * MSNAa f + 128 * MSNAb f / MSNAc) :
    (MSNA_P1 f : ℤ) =
      128 * (MSNAa f : ℤ) + ((128 * MSNAb f / MSNAc : ℕ) : ℤ) - 512 ∧
    MSNA_P2 f = 128 * MSNAb f - MSNAc * (128 * MSNAb f / MSNAc) ∧
    MSNA_P3 = MSNAc := by
  have ha : MSNAa f ≤ 1030 := by
    rw [MSNAa_eq]
    have h1 : f * 5997948702 / 25000000000000000
        ≤ 4294967296 * 5997948702 / 25000000000000000 :=
      Nat.div_le_div_right (Nat.mul_le_mul_right 5997948702 (le_of_lt hf))
    exact le_trans h1 (by norm_num)
  have hd := div_term_le_127 f
  refine ⟨?_, rfl, rfl⟩
  unfold MSNA_P1
  omega

theorem packing_formulas_witness :
    136000000 < 2 ^ 32 ∧
    512 ≤ 128 * MSNAa 136000000 + 128 * MSNAb 136000000 / MSNAc ∧
    ((MSNA_P1 136000000 : ℤ) =
       128 * (MSNAa 136000000 : ℤ)
         + ((128 * MSNAb 136000000 / MSNAc : ℕ) : ℤ) - 512 ∧
     MSNA_P2 136000000 = 128 * MSNAb 136000000
         - MSNAc * (128 * MSNAb 136000000 / MSNAc) ∧
     MSNA_P3 = MSNAc) :=
  ⟨by norm_num,
   by simp [MSNAa_136, MSNAb_136, MSNAc],
   packing_formulas 136000000 (by norm_num)
     (by simp [MSNAa_136, MSNAb_136, MSNAc])⟩

/-- C4: for every target frequency in the supported band (100–150 MHz)
the packed fields satisfy `0 ≤ P2 < c` (the lower bound holding by the
type), P1 fits in 18 bits, and P2 and P3 each fit in 20 bits. -/
theorem field_width_bounds (f : ℕ) (h1 : 100000000 ≤ f)
    (h2 : f ≤ 150000000) :
    MSNA_P2 f < MSNAc ∧ MSNA_P1 f < 2 ^ 18 ∧
    MSNA_P2 f < 2 ^ 20 ∧ MSNA_P3 < 2 ^ 20 := by
  have hb := MSNAb_lt_MSNAc f
  have ha1 := MSNAa_band_lower f h1
  have ha2 := MSNAa_band_upper f h2
  have hd := div_term_le_127 f
  unfold MSNA_P1 MSNA_P2 MSNA_P3 MSNAc at *
  refine ⟨?_, ?_, ?_, ?_⟩
  · omega
  · have hkey : ∀ s : ℕ, 2944 ≤ s → s ≤ 4607 →
        (s + 2 ^ 32 - 512) % 2 ^ 32 < 2 ^ 18 := by
      intro s hs1 hs2
      omega
    exact hkey _ (by omega) (by omega)
  · omega
  · omega

theorem field_width_bounds_witness :
    100000000 ≤ 136000000 ∧ 136000000 ≤ 150000000 ∧
    (MSNA_P2 136000000 < MSNAc ∧ MSNA_P1 136000000 < 2 ^ 18 ∧
     MSNA_P2 136000000 < 2 ^ 20 ∧ MSNA_P3 < 2 ^ 20) :=
  ⟨by norm_num, by norm_num,
   field_width_bounds 136000000 (by norm_num) (by norm_num)⟩

/-- C5: for every target frequency in the supported band, reconstructing
the synthesized frequency from `(a, b, c)` as
`25000000 * (a + b/c) / 6 / CorrFact` reproduces the target within one
part in 2^20. -/
theorem round_trip_approximation (f : ℕ) (h1 : 100000000 ≤ f)
    (h2 : f ≤ 150000000) :
    |reconstruct f - (f : ℚ)| ≤ (f : ℚ) / 2 ^ 20 := by
  have hc : (MSNAc : ℚ) = 1048575 := by norm_num [MSNAc]
  have hb_le : (MSNAb f : ℚ) ≤ (MSNA f - (MSNAa f : ℚ)) * 1048575 := by
    have h := MSNAb_cast_le f
    rwa [hc] at h
  have hb_gt : (MSNA f - (MSNAa f : ℚ)) * 1048575 < (MSNAb f : ℚ) + 1 := by
    have h := lt_MSNAb_add_one f
    rwa [hc] at h
  have hA_le : (MSNAa f : ℚ) + (MSNAb f : ℚ) / 1048575 ≤ MSNA f := by
    linarith
  have hA_gt : MSNA f - 1 / 1048575
      < (MSNAa f : ℚ) + (MSNAb f : ℚ) / 1048575 := by
    linarith
  have hK : reconstruct f = ((MSNAa f : ℚ) + (MSNAb f : ℚ) / 1048575)
      * (12500000000000000 / 2998974351) := by
    unfold reconstruct CorrFact
    rw [hc]
    field_simp
    ring
  have hfM : (f : ℚ) = MSNA f * (12500000000000000 / 2998974351) := by
    unfold MSNA CorrFact
    field_simp
    ring
  have hKpos : (0 : ℚ) < 12500000000000000 / 2998974351 := by norm_num
  have hdle : ((MSNAa f : ℚ) + (MSNAb f : ℚ) / 1048575)
        * (12500000000000000 / 2998974351)
      ≤ MSNA f * (12500000000000000 / 2998974351) :=
    mul_le_mul_of_nonneg_right hA_le (le_of_lt hKpos)
  have hdiff_nonneg : 0 ≤ (f : ℚ) - reconstruct f := by
    rw [hK, hfM]
    linarith
  have hdgt : (MSNA f - 1 / 1048575) * (12500000000000000 / 2998974351)
      < ((MSNAa f : ℚ) + (MSNAb f : ℚ) / 1048575)
        * (12500000000000000 / 2998974351) :=
    mul_lt_mul_of_pos_right hA_gt hKpos
  have hdiff_lt : (f : ℚ) - reconstruct f
      < (1 / 1048575) * (12500000000000000 / 2998974351) := by
    rw [hK, hfM]
    nlinarith
  have hband : (100000000 : ℚ) ≤ (f : ℚ) := by exact_mod_cast h1
  have hfinal : (1 / 1048575 : ℚ) * (12500000000000000 / 2998974351)
      ≤ (f : ℚ) / 2 ^ 20 := by
    have hsmall : (1 / 1048575 : ℚ) * (12500000000000000 / 2998974351)
        ≤ (100000000 : ℚ) / 2 ^ 20 := by norm_num
    linarith
  rw [abs_sub_comm, abs_of_nonneg hdiff_nonneg]
  linarith

theorem round_trip_approximation_witness :
    100000000 ≤ 136000000 ∧ 136000000 ≤ 150000000 ∧
    |reconstruct 136000000 - (136000000 : ℚ)| ≤ (136000000 : ℚ) / 2 ^ 20 :=
  ⟨by norm_num, by norm_num,
   round_trip_approximation 136000000 (by norm_num) (by norm_num)⟩

end G1OJS_Tiny_Si5351_CLK0
